import Mathlib

/-!
Shallow embedding of the log-processing application (a network-flow telemetry
collector).  The embedding follows the Rust sources:

* `src/util.rs`   — address classification (`parse_ip`, `parse_location`,
  `Location`, `AggregatedKey`, `CommunicationData`);
* `src/main.rs`   — the ingestion loop: flush due-check, retry-on-failure,
  cache merge, monitoring counters;
* `src/influx.rs` — batch construction (`insert_data_into_influx`): tags,
  field casts, timestamp, batch sequence number.

Machine integers are modelled as `Nat`/`Int` with explicit reductions modulo
`2^64` where Rust performs wrapping arithmetic (`u64`/`usize` accumulation via
release-mode `+=` and atomic `fetch_add`, and `as i64` casts).  The external
CIDR library (`cidr_utils::IpCidr`) is modelled at its interface boundary as a
membership test on addresses; the external protobuf-decoded `FlowMessage` is a
flat record of the fields the loop reads, plus the encoded payload length that
feeds the size heuristic.
-/

namespace LogProc

/-- Wrap-around modulus of 64-bit machine integers. -/
def U64 : Nat := 2 ^ 64

/-- Signed 64-bit two's-complement wrap of an unbounded integer, the result of
Rust wrapping arithmetic on `i64` (atomic `fetch_add`, release-mode `*`). -/
def iwrap64 (x : Int) : Int := (x + 2 ^ 63) % 2 ^ 64 - 2 ^ 63

/-- Wrapping cast `u64 as i64` (two's complement reinterpretation). -/
def asI64 (n : Nat) : Int :=
  if n % U64 < 2 ^ 63 then ((n % U64 : Nat) : Int) else ((n % U64 : Nat) : Int) - 2 ^ 64

/-- Model of `std::net::IpAddr`: a v4 or v6 address carrying its raw bytes
(4 bytes for v4, 16 for v6, established at the construction sites in
`parse_ip`). -/
inductive IpAddr where
  | v4 (bytes : List Nat) : IpAddr
  | v6 (bytes : List Nat) : IpAddr
deriving DecidableEq, Repr

/-- Model of the external `cidr_utils::cidr::IpCidr`, kept at its interface
boundary: all the repository uses is `cidr.contains(ip)`. -/
structure IpCidr where
  contains : IpAddr → Bool

/-- Enum `Location` from `src/util.rs`. -/
inductive Location where
  | Inside (ip : IpAddr) : Location
  | Outside : Location
deriving DecidableEq, Repr

/-- Struct `AggregatedKey` from `src/util.rs` (`time: u64`, vlans and proto
`u32`). -/
structure AggregatedKey where
  time : Nat
  source : Location
  target : Location
  src_vlan : Nat
  dst_vlan : Nat
  proto : Nat
deriving DecidableEq, Repr

/-- Struct `CommunicationData` from `src/util.rs` (`packets: u64`,
`bytes: u64`). -/
structure CommunicationData where
  packets : Nat
  bytes : Nat
deriving DecidableEq, Repr

/-- Function `parse_ip` from `src/util.rs`.  Match arms in source order:
`0x0800` (IPv4, `try_into` a 4-byte array, error on length mismatch);
`0x86DD` guarded by `addr.len() == 16` (IPv6); `0x0806` (ARP, `Ok(None)`);
catch-all (unknown etype, `Ok(None)`).  An IPv6 etype whose guard fails falls
through to the catch-all arm. -/
def parse_ip (etype : Nat) (addr : List Nat) : Except String (Option IpAddr) :=
  if etype = 0x0800 then
    if addr.length = 4 then Except.ok (some (IpAddr.v4 addr))
    else Except.error "Received invalid addr for given etype."
  else if etype = 0x86DD ∧ addr.length = 16 then Except.ok (some (IpAddr.v6 addr))
  else if etype = 0x0806 then Except.ok none
  else Except.ok none

/-- The `for cidr in cidr_list` loop inside `parse_location`
(`src/util.rs`): first range containing the address wins and yields
`Inside(ip)`; if the scan falls off the end the address is `Outside`. -/
def scanCidrs (ip : IpAddr) : List IpCidr → Location
  | [] => Location.Outside
  | c :: rest => if c.contains ip then Location.Inside ip else scanCidrs ip rest

/-- Function `parse_location` from `src/util.rs`: propagate `parse_ip`
errors, forward its successful `None`, and otherwise scan the configured
ranges in order. -/
def parse_location (etype : Nat) (addr : List Nat) (cidr_list : List IpCidr) :
    Except String (Option Location) :=
  match parse_ip etype addr with
  | Except.error e => Except.error e
  | Except.ok none => Except.ok none
  | Except.ok (some ip) => Except.ok (some (scanCidrs ip cidr_list))

/-- Lookup in the model of `HashMap<AggregatedKey, CommunicationData>`
(`edge_cache` in `src/main.rs`), represented as an association list. -/
def cacheFind : List (AggregatedKey × CommunicationData) → AggregatedKey →
    Option CommunicationData
  | [], _ => none
  | (k2, d) :: rest, k => if k2 = k then some d else cacheFind rest k

/-- The `edge_cache.entry(key)` match in `src/main.rs` (lines 188-208):
`Occupied` adds `message.packets`/`message.bytes` to the existing entry with
release-mode wrapping `u64` addition; `Vacant` inserts the record's own
counts. -/
def edgeCacheMerge (cache : List (AggregatedKey × CommunicationData))
    (k : AggregatedKey) (packets bytes : Nat) :
    List (AggregatedKey × CommunicationData) :=
  match cache with
  | [] => [(k, ⟨packets, bytes⟩)]
  | (k2, d) :: rest =>
    if k2 = k then (k2, ⟨(d.packets + packets) % U64, (d.bytes + bytes) % U64⟩) :: rest
    else (k2, d) :: edgeCacheMerge rest k packets bytes

/-- Merging a list of `(packets, bytes)` records under one key, in arrival
order. -/
def mergeAll (cache : List (AggregatedKey × CommunicationData))
    (k : AggregatedKey) : List (Nat × Nat) → List (AggregatedKey × CommunicationData)
  | [] => cache
  | r :: rs => mergeAll (edgeCacheMerge cache k r.1 r.2) k rs

/-- Model of the externally decoded `flowprotob::FlowMessage`, restricted to
the fields `src/main.rs` reads, plus the encoded payload length
(`payload.len()`) that feeds the size heuristic.  All `u64` fields wrap at
`2^64`; bounds are carried as hypotheses where needed. -/
structure FlowMessage where
  etype : Nat
  src_addr : List Nat
  dst_addr : List Nat
  src_vlan : Nat
  dst_vlan : Nat
  proto : Nat
  bytes : Nat
  packets : Nat
  time_flow_start : Nat
  time_received : Nat
  payload_len : Nat
deriving Repr

/-- One `consumer.recv().await` outcome, as distinguished by the ingestion
loop: a bus-level error (logged, loop continues), a message with no payload
(`panic!`), a payload that fails protobuf decoding (`?` propagates, fatal),
or a successfully decoded message. -/
inductive RecvEvent where
  | kafkaError : RecvEvent
  | noPayload : RecvEvent
  | decodeFail : RecvEvent
  | msg (m : FlowMessage) : RecvEvent

/-- Mutable state of the ingestion loop in `src/main.rs` plus the
`BATCH_NUMBER` static from `src/influx.rs`.  `size_of_cache` is the
`AtomicUsize` byte heuristic, `total_transferred` the `AtomicU64` monitoring
counter, `processing_time` the `AtomicI64` last-processed timestamp. -/
structure LoopState where
  edge_cache : List (AggregatedKey × CommunicationData)
  size_of_cache : Nat
  total_transferred : Nat
  processing_time : Int
  batch_number : Int
deriving DecidableEq, Repr

/-- Initial state: empty cache, all counters zero, `BATCH_NUMBER` starts
at 0. -/
def initState : LoopState :=
  { edge_cache := [], size_of_cache := 0, total_transferred := 0,
    processing_time := 0, batch_number := 0 }

/-- Result of the flush due-check at the top of the loop (`src/main.rs`
lines 145-165).  `carried` is the batch number the attempt tagged its points
with (the pre-increment value returned by `fetch_add`); `slept` is the
back-off in seconds. -/
structure FlushOut where
  state : LoopState
  attempted : Bool
  succeeded : Bool
  carried : Option Int
  slept : Nat
deriving Repr

/-- Flush due-check and attempt: if `size_of_cache >= batch_size`, call
`insert_data_into_influx` (which always advances `BATCH_NUMBER` by a wrapping
`fetch_add`).  On sink success, clear the cache and store 0 into the size
counter; on sink failure, change nothing else, sleep 5 seconds and
`continue`. -/
def flushPhase (threshold : Nat) (sinkOk : Bool) (s : LoopState) : FlushOut :=
  if threshold ≤ s.size_of_cache then
    let s1 : LoopState := { s with batch_number := iwrap64 (s.batch_number + 1) }
    if sinkOk then
      { state := { s1 with edge_cache := [], size_of_cache := 0 },
        attempted := true, succeeded := true, carried := some s.batch_number, slept := 0 }
    else
      { state := s1, attempted := true, succeeded := false,
        carried := some s.batch_number, slept := 5 }
  else
    { state := s, attempted := false, succeeded := false, carried := none, slept := 0 }

/-- Result of the receive half of one loop iteration.  `consumed` records
that `consumer.recv()` was awaited; `fatal` that the error propagated out of
`main` (or `panic!` fired); `added` is the size-heuristic increment
performed (`size_of::<u32>() + payload.len()`, 0 when none). -/
structure RecvOut where
  state : LoopState
  consumed : Bool
  fatal : Bool
  added : Nat
deriving Repr

/-- Receive-and-process half of one loop iteration (`src/main.rs` lines
167-219): add `message.bytes` to `total_transferred` right after decoding,
then classify source and target (dropping the record on a successful `None`,
propagating classification errors), merge into the cache under the 300-second
aligned key, store the receive time (fatal when it exceeds `i64`), and add
the size heuristic. -/
def recvPhase (cidr_list : List IpCidr) (ev : RecvEvent) (s : LoopState) : RecvOut :=
  match ev with
  | RecvEvent.kafkaError => { state := s, consumed := true, fatal := false, added := 0 }
  | RecvEvent.noPayload => { state := s, consumed := true, fatal := true, added := 0 }
  | RecvEvent.decodeFail => { state := s, consumed := true, fatal := true, added := 0 }
  | RecvEvent.msg m =>
    let s1 : LoopState :=
      { s with total_transferred := (s.total_transferred + m.bytes) % U64 }
    match parse_location m.etype m.src_addr cidr_list with
    | Except.error _ => { state := s1, consumed := true, fatal := true, added := 0 }
    | Except.ok none => { state := s1, consumed := true, fatal := false, added := 0 }
    | Except.ok (some src) =>
      match parse_location m.etype m.dst_addr cidr_list with
      | Except.error _ => { state := s1, consumed := true, fatal := true, added := 0 }
      | Except.ok none => { state := s1, consumed := true, fatal := false, added := 0 }
      | Except.ok (some dst) =>
        let key : AggregatedKey :=
          { time := m.time_flow_start / 300 * 300, source := src, target := dst,
            src_vlan := m.src_vlan, dst_vlan := m.dst_vlan, proto := m.proto }
        let s2 : LoopState :=
          { s1 with edge_cache := edgeCacheMerge s1.edge_cache key m.packets m.bytes }
        if m.time_received < 2 ^ 63 then
          let s3 : LoopState :=
            { s2 with
              processing_time := (m.time_received : Int)
              size_of_cache := (s2.size_of_cache + (4 + m.payload_len)) % U64 }
          { state := s3, consumed := true, fatal := false, added := 4 + m.payload_len }
        else
          { state := s2, consumed := true, fatal := true, added := 0 }

/-- Full observable outcome of one loop iteration. -/
structure StepOut where
  state : LoopState
  consumed : Bool
  attempted : Bool
  succeeded : Bool
  carried : Option Int
  slept : Nat
  fatal : Bool
  added : Nat
deriving Repr

/-- One iteration of the `loop` in `main` (`src/main.rs` lines 144-220):
flush due-check first; a failed attempt sleeps and `continue`s without
receiving; otherwise receive and process the next event. -/
def step (threshold : Nat) (cidr_list : List IpCidr) (sinkOk : Bool)
    (ev : RecvEvent) (s : LoopState) : StepOut :=
  let f := flushPhase threshold sinkOk s
  if f.attempted ∧ ¬ f.succeeded then
    { state := f.state, consumed := false, attempted := f.attempted,
      succeeded := false, carried := f.carried, slept := f.slept,
      fatal := false, added := 0 }
  else
    let r := recvPhase cidr_list ev f.state
    { state := r.state, consumed := r.consumed, attempted := f.attempted,
      succeeded := f.succeeded, carried := f.carried, slept := f.slept,
      fatal := r.fatal, added := r.added }

/-- Run a trace of loop iterations, each driven by a sink outcome and a
receive event; stops at a fatal iteration.  Returns the final state paired
with the batch numbers carried by the flush attempts, in order. -/
def runTrace (threshold : Nat) (cidr_list : List IpCidr) :
    List (Bool × RecvEvent) → LoopState → LoopState × List Int
  | [], s => (s, [])
  | (ok, ev) :: rest, s =>
    let o := step threshold cidr_list ok ev s
    if o.fatal then (o.state, o.carried.toList)
    else
      let r := runTrace threshold cidr_list rest o.state
      (r.1, o.carried.toList ++ r.2)

/-- Batch numbers carried by the flush attempts of a trace started from the
initial state. -/
def runCarried (threshold : Nat) (cidr_list : List IpCidr)
    (t : List (Bool × RecvEvent)) : List Int :=
  (runTrace threshold cidr_list t initState).2

/-- Iterate the loop with a failing sink `n` times (the event is irrelevant
while the flush is due, since a failed attempt never receives). -/
def failSteps (threshold : Nat) (cidr_list : List IpCidr) (ev : RecvEvent) :
    Nat → LoopState → LoopState
  | 0, s => s
  | n + 1, s => failSteps threshold cidr_list ev n (step threshold cidr_list false ev s).state

/-- Reachability of a loop state from `initState` through non-fatal
iterations, instrumented with a ghost counter `g`: the exact (unwrapped) sum
of the size-heuristic increments performed since the last successful flush. -/
inductive Reach (threshold : Nat) (cidr_list : List IpCidr) : LoopState → Nat → Prop where
  | init : Reach threshold cidr_list initState 0
  | next (s : LoopState) (g : Nat) (ok : Bool) (ev : RecvEvent) :
      Reach threshold cidr_list s g →
      (step threshold cidr_list ok ev s).fatal = false →
      Reach threshold cidr_list (step threshold cidr_list ok ev s).state
        ((if (step threshold cidr_list ok ev s).succeeded then 0 else g) +
          (step threshold cidr_list ok ev s).added)

/-- Rendering of `Location` by `format!("{:?}", ...)` — the derived `Debug`
implementation: the variant name, with the payload parenthesized for
`Inside`.  `ipText` abstracts the textual rendering of the contained address
(for `std::net::IpAddr`, `Debug` delegates to `Display`); both this function
and `locationSerializeString` are parameterized by the same `ipText`. -/
def locationDebugString (ipText : IpAddr → String) : Location → String
  | Location.Inside ip => "Inside(" ++ ipText ip ++ ")"
  | Location.Outside => "Outside"

/-- Rendering of `Location` by its handwritten `Serialize` implementation in
`src/util.rs`: `ip.to_string()` for `Inside`, the literal `"outside"` for
`Outside`. -/
def locationSerializeString (ipText : IpAddr → String) : Location → String
  | Location.Inside ip => ipText ip
  | Location.Outside => "outside"

/-- One point of a flush batch, as built by `insert_data_into_influx` in
`src/influx.rs`. -/
structure DataPointModel where
  measurement : String
  source_tag : String
  target_tag : String
  src_vlan_tag : String
  dst_vlan_tag : String
  proto_tag : String
  batch_number_tag : String
  packets_field : Int
  bytes_field : Int
  timestamp : Int
deriving DecidableEq, Repr

/-- Point construction from `src/influx.rs` lines 29-44: the `source` and
`target` tags are `format!("{:?}", ...)` of the key's locations, the numeric
tags are decimal `to_string()`, the fields are `value.packets as i64` and
`value.bytes as i64` (wrapping casts), and the timestamp is
`key.time as i64 * 1_000_000_000` with release-mode wrapping `i64`
multiplication. -/
def dataPointOf (ipText : IpAddr → String) (batch_number : Int)
    (key : AggregatedKey) (value : CommunicationData) : DataPointModel :=
  { measurement := "sflow"
    source_tag := locationDebugString ipText key.source
    target_tag := locationDebugString ipText key.target
    src_vlan_tag := toString key.src_vlan
    dst_vlan_tag := toString key.dst_vlan
    proto_tag := toString key.proto
    batch_number_tag := toString batch_number
    packets_field := asI64 value.packets
    bytes_field := asI64 value.bytes
    timestamp := iwrap64 (asI64 key.time * 1000000000) }

/-! ### Concrete data for witnesses and counterexamples -/

/-- Concrete CIDR used by witnesses: contains exactly the v4 addresses whose
first byte is 10 (a model of `10.0.0.0/8`). -/
def demoCidr10 : IpCidr :=
  ⟨fun a => match a with
    | IpAddr.v4 (10 :: _) => true
    | _ => false⟩

/-- Concrete key used by witnesses. -/
def demoKey : AggregatedKey :=
  { time := 0, source := Location.Outside, target := Location.Outside,
    src_vlan := 0, dst_vlan := 0, proto := 0 }

/-- Concrete loop state used by witnesses: one cache entry, size counter
at 10. -/
def demoState : LoopState :=
  { edge_cache := [(demoKey, ⟨1, 1⟩)], size_of_cache := 10, total_transferred := 0,
    processing_time := 0, batch_number := 0 }

/-- Concrete key whose source is an `Inside` address, used by witnesses and
counterexamples. -/
def insideKey : AggregatedKey :=
  { time := 0, source := Location.Inside (IpAddr.v4 [10, 0, 0, 1]),
    target := Location.Outside, src_vlan := 0, dst_vlan := 0, proto := 0 }

/-- Concrete key with a small bucket time, used by the C10 witness. -/
def demoKeyT : AggregatedKey := { demoKey with time := 100 }

/-- Two records whose classification succeeds (IPv4, empty range list) and
whose size-heuristic increments sum to exactly `2^64`, wrapping the `usize`
size counter back to zero while the cache is nonempty. -/
def hugeMsg1 : FlowMessage :=
  { etype := 0x0800, src_addr := [10, 0, 0, 1], dst_addr := [10, 0, 0, 2],
    src_vlan := 0, dst_vlan := 0, proto := 6, bytes := 1, packets := 1,
    time_flow_start := 0, time_received := 0, payload_len := 2 ^ 63 - 1 }

/-- Companion record to `hugeMsg1`; its payload length makes the two
increments `(4 + (2^63 - 1)) + (4 + (2^63 - 7)) = 2^64`. -/
def hugeMsg2 : FlowMessage := { hugeMsg1 with payload_len := 2 ^ 63 - 7 }

/-! ### Helper lemmas -/

lemma iwrap64_lb (x : Int) : -(2 ^ 63) ≤ iwrap64 x := by
  unfold iwrap64; omega

lemma iwrap64_ub (x : Int) : iwrap64 x < 2 ^ 63 := by
  unfold iwrap64; omega

lemma iwrap64_eq_self (x : Int) (h1 : -(2 ^ 63) ≤ x) (h2 : x < 2 ^ 63) :
    iwrap64 x = x := by
  unfold iwrap64; omega

lemma iwrap64_add_left (a b : Int) : iwrap64 (iwrap64 a + b) = iwrap64 (a + b) := by
  unfold iwrap64; omega

lemma scanCidrs_dichotomy (ip : IpAddr) (cid : List IpCidr) :
    scanCidrs ip cid = Location.Inside ip ∨ scanCidrs ip cid = Location.Outside := by
  induction cid with
  | nil => right; rfl
  | cons c rest ih =>
    by_cases h : c.contains ip
    · left; simp [scanCidrs, h]
    · simpa [scanCidrs, h] using ih

lemma scanCidrs_inside_iff (ip : IpAddr) (cid : List IpCidr) :
    scanCidrs ip cid = Location.Inside ip ↔ ∃ c ∈ cid, c.contains ip = true := by
  induction cid with
  | nil => simp [scanCidrs]
  | cons c rest ih =>
    by_cases h : c.contains ip
    · simp [scanCidrs, h]
    · simp [scanCidrs, h, ih]

/-! ### Claim C1 -/

/-- C1, counterexample: calling the classifier with the IPv6 family tag
(0x86DD) and a 4-byte address does not fail — both `parse_ip` and
`parse_location` return the successful no-address result `None`, because the
length guard on the IPv6 match arm makes the call fall through to the
catch-all (unknown etype) arm. -/
theorem c1_counterexample :
    parse_ip 0x86DD [1, 2, 3, 4] = Except.ok none ∧
    parse_location 0x86DD [1, 2, 3, 4] [] = Except.ok none :=
  ⟨rfl, rfl⟩

/-- C1, amended: for every call to the location classifier with the IPv6
family tag (0x86DD) and a raw address whose byte length is not 16, the call
succeeds with the no-address result `None` (the record is silently dropped,
exactly as for ARP or an unrecognized tag); it does not fail with
`MalformedAddress`. -/
theorem c1_ipv6_bad_length (addr : List Nat) (cidr_list : List IpCidr)
    (h : addr.length ≠ 16) :
    parse_location 0x86DD addr cidr_list = Except.ok none ∧
    parse_ip 0x86DD addr = Except.ok none := by
  have h1 : ¬ ((0x86DD : Nat) = 0x0800) := by decide
  have h3 : ¬ ((0x86DD : Nat) = 0x0806) := by decide
  constructor
  · simp [parse_location, parse_ip, h1, h3, h]
  · simp [parse_ip, h1, h3, h]

/-- C1 witness: concrete instance at a 4-byte address. -/
theorem c1_ipv6_bad_length_witness :
    parse_location 0x86DD [9, 9, 9, 9] [] = Except.ok none :=
  (c1_ipv6_bad_length [9, 9, 9, 9] [] (by decide)).1

/-! ### Claim C7 -/

/-- C7: for every resolved address, `parse_location` scans the configured
ranges in their configured order (the ordered scan `scanCidrs`) and returns
`Inside(ip)` exactly when some range contains the address (the first such
range wins), `Outside` otherwise — in particular `Outside` for the empty
range list, with no error; and for the ARP family tag or any unrecognized
family tag it returns the successful `None` regardless of the address
bytes. -/
theorem c7_classification (etype : Nat) (addr : List Nat) (cidr_list : List IpCidr) :
    (∀ ip, parse_ip etype addr = Except.ok (some ip) →
      parse_location etype addr cidr_list = Except.ok (some (scanCidrs ip cidr_list)) ∧
      (scanCidrs ip cidr_list = Location.Inside ip ∨
        scanCidrs ip cidr_list = Location.Outside) ∧
      (scanCidrs ip cidr_list = Location.Inside ip ↔
        ∃ c ∈ cidr_list, c.contains ip = true) ∧
      parse_location etype addr [] = Except.ok (some Location.Outside)) ∧
    ((etype = 0x0806 ∨ (¬ etype = 0x0800 ∧ ¬ etype = 0x86DD ∧ ¬ etype = 0x0806)) →
      parse_location etype addr cidr_list = Except.ok none) := by
  constructor
  · intro ip hip
    refine ⟨?_, scanCidrs_dichotomy ip cidr_list, scanCidrs_inside_iff ip cidr_list, ?_⟩
    · simp [parse_location, hip]
    · simp [parse_location, hip, scanCidrs]
  · intro h
    rcases h with h | ⟨h1, h2, h3⟩
    · subst h
      simp [parse_location, parse_ip]
    · simp [parse_location, parse_ip, h1, h2, h3]

/-- C7 witness: `10.1.2.3` classifies `Inside`, `8.8.8.8` classifies
`Outside`, ARP classifies `None`. -/
theorem c7_classification_witness :
    parse_location 0x0800 [10, 1, 2, 3] [demoCidr10] =
      Except.ok (some (Location.Inside (IpAddr.v4 [10, 1, 2, 3]))) ∧
    parse_location 0x0800 [8, 8, 8, 8] [demoCidr10] =
      Except.ok (some Location.Outside) ∧
    parse_location 0x0806 [1, 2, 3, 4] [demoCidr10] = Except.ok none := by
  have h1 := (c7_classification 0x0800 [10, 1, 2, 3] [demoCidr10]).1
    (IpAddr.v4 [10, 1, 2, 3]) (by rfl)
  have h2 := (c7_classification 0x0800 [8, 8, 8, 8] [demoCidr10]).1
    (IpAddr.v4 [8, 8, 8, 8]) (by rfl)
  have h3 := (c7_classification 0x0806 [1, 2, 3, 4] [demoCidr10]).2 (Or.inl rfl)
  refine ⟨?_, ?_, h3⟩
  · rw [h1.1]; rfl
  · rw [h2.1]; rfl

/-! ### Claim C9 -/

/-- C9: for every received message whose payload decodes successfully, the
record's byte count is added (with the `u64` wrap of `fetch_add`) to the
transferred-bytes monitoring counter unconditionally — the resulting counter
value is the same in every branch of the receive phase, whether the record is
merged, dropped as unclassifiable, or fatal to the process, because the
addition happens before any classification. -/
theorem c9_transferred_before_classification (cidr_list : List IpCidr)
    (m : FlowMessage) (s : LoopState) :
    (recvPhase cidr_list (RecvEvent.msg m) s).state.total_transferred
      = (s.total_transferred + m.bytes) % U64 := by
  unfold recvPhase
  repeat' split
  all_goals simp_all

/-! ### Flush policy lemmas -/

lemma step_fail_due (threshold : Nat) (cid : List IpCidr) (ev : RecvEvent)
    (s : LoopState) (h : threshold ≤ s.size_of_cache) :
    step threshold cid false ev s =
      { state := { s with batch_number := iwrap64 (s.batch_number + 1) },
        consumed := false, attempted := true, succeeded := false,
        carried := some s.batch_number, slept := 5, fatal := false, added := 0 } := by
  simp [step, flushPhase, h]

lemma failSteps_preserves (threshold : Nat) (cid : List IpCidr) (ev : RecvEvent) :
    ∀ (n : Nat) (s : LoopState), threshold ≤ s.size_of_cache →
      (failSteps threshold cid ev n s).edge_cache = s.edge_cache ∧
      (failSteps threshold cid ev n s).size_of_cache = s.size_of_cache := by
  intro n
  induction n with
  | zero => intro s _; exact ⟨rfl, rfl⟩
  | succ n ih =>
    intro s h
    rw [failSteps, step_fail_due threshold cid ev s h]
    exact ih _ h

/-! ### Claim C2 -/

/-- C2: a flush attempt whose sink write fails leaves the aggregation cache
and the approximate-size counter exactly unchanged, sleeps a fixed 5 seconds
and consumes no input record; and for every number `n` of consecutive failing
attempts the loop keeps retrying (still attempting, still not consuming) with
the cache and counter still byte-for-byte equal to their values before the
first attempt — there is no maximum-attempt cutoff. -/
theorem c2_failed_flush (threshold : Nat) (cid : List IpCidr) (ev : RecvEvent)
    (s : LoopState) (h : threshold ≤ s.size_of_cache) :
    ((step threshold cid false ev s).attempted = true ∧
     (step threshold cid false ev s).succeeded = false ∧
     (step threshold cid false ev s).consumed = false ∧
     (step threshold cid false ev s).slept = 5 ∧
     (step threshold cid false ev s).state.edge_cache = s.edge_cache ∧
     (step threshold cid false ev s).state.size_of_cache = s.size_of_cache) ∧
    (∀ n : Nat,
      (failSteps threshold cid ev n s).edge_cache = s.edge_cache ∧
      (failSteps threshold cid ev n s).size_of_cache = s.size_of_cache ∧
      (step threshold cid false ev (failSteps threshold cid ev n s)).attempted = true ∧
      (step threshold cid false ev (failSteps threshold cid ev n s)).consumed = false) := by
  constructor
  · rw [step_fail_due threshold cid ev s h]
    exact ⟨rfl, rfl, rfl, rfl, rfl, rfl⟩
  · intro n
    obtain ⟨hc, hs⟩ := failSteps_preserves threshold cid ev n s h
    have hdue : threshold ≤ (failSteps threshold cid ev n s).size_of_cache := by
      rw [hs]; exact h
    rw [step_fail_due threshold cid ev _ hdue]
    exact ⟨hc, hs, rfl, rfl⟩

/-- C2 witness: two consecutive failing attempts at threshold 1 leave the
demo state's cache and size counter unchanged and never consume input. -/
theorem c2_failed_flush_witness :
    (failSteps 1 [] RecvEvent.kafkaError 2 demoState).edge_cache = demoState.edge_cache ∧
    (failSteps 1 [] RecvEvent.kafkaError 2 demoState).size_of_cache = 10 ∧
    (step 1 [] false RecvEvent.kafkaError demoState).consumed = false := by
  have h := c2_failed_flush 1 [] RecvEvent.kafkaError demoState (by decide)
  exact ⟨(h.2 2).1, (h.2 2).2.1, h.1.2.2.1⟩

/-! ### Claim C4 -/

/-- C4: a flush is attempted if and only if, at the once-per-iteration check
performed before consuming the next input record, the approximate-size
counter is at least the configured threshold; the flush succeeds exactly when
it is due and the sink write succeeds, and on success the cache is cleared
and the approximate-size counter is reset to zero (before the iteration goes
on to receive). -/
theorem c4_flush_due (threshold : Nat) (cid : List IpCidr) (ok : Bool)
    (ev : RecvEvent) (s : LoopState) :
    ((step threshold cid ok ev s).attempted = true ↔ threshold ≤ s.size_of_cache) ∧
    ((flushPhase threshold ok s).attempted = true ↔ threshold ≤ s.size_of_cache) ∧
    ((flushPhase threshold ok s).succeeded = true ↔
      (threshold ≤ s.size_of_cache ∧ ok = true)) ∧
    ((flushPhase threshold ok s).succeeded = true →
      (flushPhase threshold ok s).state.edge_cache = [] ∧
      (flushPhase threshold ok s).state.size_of_cache = 0) := by
  by_cases hdue : threshold ≤ s.size_of_cache <;> cases ok <;>
    simp [step, flushPhase, hdue]

/-- C4 witness: at threshold 1 the demo state (size 10) triggers a flush, and
with a succeeding sink the cache is cleared and the counter reset. -/
theorem c4_flush_due_witness :
    (step 1 [] true RecvEvent.kafkaError demoState).attempted = true ∧
    (flushPhase 1 true demoState).state.edge_cache = [] ∧
    (flushPhase 1 true demoState).state.size_of_cache = 0 := by
  have h := c4_flush_due 1 [] true RecvEvent.kafkaError demoState
  exact ⟨h.1.mpr (by decide), (h.2.2.2 (by decide)).1, (h.2.2.2 (by decide)).2⟩

/-! ### Cache merge lemmas -/

lemma cacheFind_edgeCacheMerge_same (c : List (AggregatedKey × CommunicationData))
    (k : AggregatedKey) (p b : Nat) :
    cacheFind (edgeCacheMerge c k p b) k =
      some (match cacheFind c k with
        | none => (⟨p, b⟩ : CommunicationData)
        | some d => ⟨(d.packets + p) % U64, (d.bytes + b) % U64⟩) := by
  induction c with
  | nil => simp [edgeCacheMerge, cacheFind]
  | cons e rest ih =>
    by_cases h : e.1 = k
    · simp [edgeCacheMerge, cacheFind, h]
    · simp [edgeCacheMerge, cacheFind, h, ih]

lemma cacheFind_edgeCacheMerge_other (c : List (AggregatedKey × CommunicationData))
    (k : AggregatedKey) (p b : Nat) (k2 : AggregatedKey) (h : k2 ≠ k) :
    cacheFind (edgeCacheMerge c k p b) k2 = cacheFind c k2 := by
  induction c with
  | nil =>
    simp only [edgeCacheMerge, cacheFind]
    rw [if_neg (fun he => h he.symm)]
  | cons e rest ih =>
    obtain ⟨k1, d⟩ := e
    by_cases he : k1 = k
    · subst he
      simp only [edgeCacheMerge, if_pos rfl, cacheFind]
      rw [if_neg (fun hx => h hx.symm), if_neg (fun hx => h hx.symm)]
    · simp only [edgeCacheMerge, if_neg he, cacheFind]
      by_cases he2 : k1 = k2
      · rw [if_pos he2, if_pos he2]
      · rw [if_neg he2, if_neg he2, ih]

lemma cacheFind_mergeAll_other (k k2 : AggregatedKey) (h : k2 ≠ k) :
    ∀ (rs : List (Nat × Nat)) (c : List (AggregatedKey × CommunicationData)),
      cacheFind (mergeAll c k rs) k2 = cacheFind c k2 := by
  intro rs
  induction rs with
  | nil => intro c; rfl
  | cons r rest ih =>
    intro c
    rw [mergeAll, ih, cacheFind_edgeCacheMerge_other c k r.1 r.2 k2 h]

lemma cacheFind_mergeAll_occupied (k : AggregatedKey) :
    ∀ (rs : List (Nat × Nat)) (c : List (AggregatedKey × CommunicationData))
      (d : CommunicationData),
      cacheFind c k = some d → d.packets < U64 → d.bytes < U64 →
      cacheFind (mergeAll c k rs) k =
        some ⟨(d.packets + (rs.map Prod.fst).sum) % U64,
              (d.bytes + (rs.map Prod.snd).sum) % U64⟩ := by
  intro rs
  induction rs with
  | nil =>
    intro c d h hp hb
    rw [mergeAll, h]
    simp [Nat.mod_eq_of_lt hp, Nat.mod_eq_of_lt hb]
  | cons r rest ih =>
    intro c d h hp hb
    rw [mergeAll]
    have h3 : cacheFind (edgeCacheMerge c k r.1 r.2) k =
        some ⟨(d.packets + r.1) % U64, (d.bytes + r.2) % U64⟩ := by
      rw [cacheFind_edgeCacheMerge_same, h]
    rw [ih _ _ h3 (Nat.mod_lt _ (by decide)) (Nat.mod_lt _ (by decide))]
    simp [Nat.mod_add_mod, Nat.add_assoc]

/-! ### Claim C3 -/

/-- C3, counterexample: two records of `2^63` packets and `2^63` bytes merged
under one key leave the cache entry at `(0, 0)` — the wrapping `u64` addition
of the occupied branch — not at the componentwise sum `2^64`. -/
theorem c3_counterexample :
    cacheFind (mergeAll [] demoKey [(2 ^ 63, 2 ^ 63), (2 ^ 63, 2 ^ 63)]) demoKey =
      some ⟨0, 0⟩ ∧ (2 ^ 63 : Nat) + 2 ^ 63 ≠ 0 := by
  constructor
  · decide
  · decide

/-- C3, amended: for every multiset of records mapping to one aggregation
key, after merging all of them the cache entry's packets and bytes equal the
componentwise sums of the records' packets and bytes reduced modulo `2^64`
(the wrapping `u64` accumulator), regardless of arrival order; the first
occurrence of a key inserts that record's own counts, and no occurrence
touches any other key. -/
theorem c3_merge_sums (k : AggregatedKey)
    (c : List (AggregatedKey × CommunicationData)) (rs : List (Nat × Nat))
    (h0 : cacheFind c k = none) (hb : ∀ r ∈ rs, r.1 < U64 ∧ r.2 < U64) :
    (∀ p b, cacheFind (edgeCacheMerge c k p b) k = some ⟨p, b⟩) ∧
    (rs ≠ [] → cacheFind (mergeAll c k rs) k =
      some ⟨(rs.map Prod.fst).sum % U64, (rs.map Prod.snd).sum % U64⟩) ∧
    (∀ k2, k2 ≠ k → cacheFind (mergeAll c k rs) k2 = cacheFind c k2) ∧
    (∀ rs2, rs.Perm rs2 → (∀ r ∈ rs2, r.1 < U64 ∧ r.2 < U64) →
      cacheFind (mergeAll c k rs) k = cacheFind (mergeAll c k rs2) k) := by
  have hne : ∀ (l : List (Nat × Nat)), l ≠ [] → (∀ r ∈ l, r.1 < U64 ∧ r.2 < U64) →
      cacheFind (mergeAll c k l) k =
        some ⟨(l.map Prod.fst).sum % U64, (l.map Prod.snd).sum % U64⟩ := by
    intro l hl hbl
    match l with
    | r :: rest =>
      rw [mergeAll]
      have h1 : cacheFind (edgeCacheMerge c k r.1 r.2) k = some ⟨r.1, r.2⟩ := by
        rw [cacheFind_edgeCacheMerge_same, h0]
      have hr := hbl r (List.mem_cons_self r rest)
      rw [cacheFind_mergeAll_occupied k rest _ _ h1 hr.1 hr.2]
      simp
  constructor
  · intro p b
    rw [cacheFind_edgeCacheMerge_same, h0]
  constructor
  · intro hl
    exact hne rs hl hb
  constructor
  · intro k2 hk2
    exact cacheFind_mergeAll_other k k2 hk2 rs c
  · intro rs2 hperm hb2
    match hrs : rs with
    | [] =>
      have : rs2 = [] := hperm.symm.eq_nil
      rw [this]
    | r :: rest =>
      have h2 : rs2 ≠ [] := by
        intro hx
        rw [hx] at hperm
        exact (List.cons_ne_nil r rest) hperm.eq_nil
      rw [hne (r :: rest) (List.cons_ne_nil r rest) hb, hne rs2 h2 hb2,
        (hperm.map Prod.fst).sum_eq, (hperm.map Prod.snd).sum_eq]

/-- C3 witness: merging `(1,2)` then `(3,4)` under the demo key yields the
entry `(4 mod 2^64, 6 mod 2^64)`. -/
theorem c3_merge_sums_witness :
    cacheFind (mergeAll [] demoKey [(1, 2), (3, 4)]) demoKey =
      some ⟨([(1, 2), (3, 4)].map Prod.fst).sum % U64,
            ([(1, 2), (3, 4)].map Prod.snd).sum % U64⟩ :=
  (c3_merge_sums demoKey [] [(1, 2), (3, 4)] (by decide) (by decide)).2.1 (by decide)

/-! ### Claim C8 -/

/-- C8, counterexample: the `source` tag of an emitted point is the `Debug`
rendering of the key's `Location`, not its `Serialize` rendering: for an
`Outside` source the tag is the string `"Outside"`, not the literal
`"outside"`, and for an `Inside` source the tag is `"Inside(<ip>)"`, not the
textual IP address. -/
theorem c8_counterexample :
    (dataPointOf (fun _ => "10.0.0.1") 0 demoKey ⟨1, 1⟩).source_tag = "Outside" ∧
    "Outside" ≠ "outside" ∧
    (dataPointOf (fun _ => "10.0.0.1") 0 insideKey ⟨1, 1⟩).source_tag = "Inside(10.0.0.1)" ∧
    "Inside(10.0.0.1)" ≠ "10.0.0.1" :=
  ⟨rfl, by decide, rfl, by decide⟩

/-- C8, amended: for every cache entry emitted in a flush batch, the point's
`source` and `target` tags are the `Debug` (`format!("{:?}", ...)`)
rendering of the key's `Location` values — `Inside(<textual ip>)` and
`Outside` — and for no location does this coincide with the `Serialize`
implementation's form (the textual IP address for `Inside`, the literal
string `"outside"` for `Outside`), whatever the textual rendering of the
contained address is. -/
theorem c8_tags_are_debug (ipText : IpAddr → String) (bn : Int)
    (key : AggregatedKey) (value : CommunicationData) :
    (dataPointOf ipText bn key value).source_tag = locationDebugString ipText key.source ∧
    (dataPointOf ipText bn key value).target_tag = locationDebugString ipText key.target ∧
    (∀ l : Location, locationDebugString ipText l ≠ locationSerializeString ipText l) := by
  refine ⟨rfl, rfl, ?_⟩
  intro l
  cases l with
  | Outside =>
    simp only [locationDebugString, locationSerializeString]
    decide
  | Inside ip =>
    simp only [locationDebugString, locationSerializeString]
    intro h
    have hlen := congrArg String.length h
    rw [String.length_append, String.length_append] at hlen
    have h7 : ("Inside(" : String).length = 7 := rfl
    have h1 : (")" : String).length = 1 := rfl
    omega

/-! ### Claim C10 -/

lemma asI64_eq_of_lt (n : Nat) (h : n < 2 ^ 64) :
    asI64 n = if n < 2 ^ 63 then (n : Int) else (n : Int) - 2 ^ 64 := by
  unfold asI64 U64
  rw [Nat.mod_eq_of_lt h]

/-- C10: the packets and bytes fields written to the sink are obtained from
the unsigned 64-bit accumulators by a wrapping two's-complement cast to
signed 64-bit, so an accumulated count of `2^63` or more is written negative;
and the timestamp is the bucket time cast to signed 64-bit and multiplied by
1,000,000,000 with wrapping arithmetic, equalling the exact nanosecond value
exactly when that product stays below `2^63`. -/
theorem c10_wrapping_casts (ipText : IpAddr → String) (bn : Int)
    (key : AggregatedKey) (value : CommunicationData)
    (hp : value.packets < 2 ^ 64) (hb : value.bytes < 2 ^ 64)
    (ht : key.time < 2 ^ 64) :
    ((dataPointOf ipText bn key value).packets_field =
      if value.packets < 2 ^ 63 then (value.packets : Int)
      else (value.packets : Int) - 2 ^ 64) ∧
    (2 ^ 63 ≤ value.packets → (dataPointOf ipText bn key value).packets_field < 0) ∧
    ((dataPointOf ipText bn key value).bytes_field =
      if value.bytes < 2 ^ 63 then (value.bytes : Int)
      else (value.bytes : Int) - 2 ^ 64) ∧
    (2 ^ 63 ≤ value.bytes → (dataPointOf ipText bn key value).bytes_field < 0) ∧
    ((dataPointOf ipText bn key value).timestamp = (key.time : Int) * 1000000000 ↔
      key.time * 1000000000 < 2 ^ 63) := by
  have hpc : ((value.packets : Int)) < 2 ^ 64 := by exact_mod_cast hp
  have hbc : ((value.bytes : Int)) < 2 ^ 64 := by exact_mod_cast hb
  have hfp : (dataPointOf ipText bn key value).packets_field =
      if value.packets < 2 ^ 63 then (value.packets : Int)
      else (value.packets : Int) - 2 ^ 64 := asI64_eq_of_lt value.packets hp
  have hfb : (dataPointOf ipText bn key value).bytes_field =
      if value.bytes < 2 ^ 63 then (value.bytes : Int)
      else (value.bytes : Int) - 2 ^ 64 := asI64_eq_of_lt value.bytes hb
  refine ⟨hfp, ?_, hfb, ?_, ?_⟩
  · intro hge
    rw [hfp, if_neg (by omega)]
    have : (2 ^ 63 : Int) ≤ (value.packets : Int) := by exact_mod_cast hge
    omega
  · intro hge
    rw [hfb, if_neg (by omega)]
    have : (2 ^ 63 : Int) ≤ (value.bytes : Int) := by exact_mod_cast hge
    omega
  · have hts : (dataPointOf ipText bn key value).timestamp =
        iwrap64 (asI64 key.time * 1000000000) := rfl
    rw [hts]
    constructor
    · intro heq
      have hub := iwrap64_ub (asI64 key.time * 1000000000)
      rw [heq] at hub
      have : ((key.time * 1000000000 : Nat) : Int) < 2 ^ 63 := by push_cast; omega
      exact_mod_cast this
    · intro hlt
      have ht63 : key.time < 2 ^ 63 := by
        by_contra hc
        push_neg at hc
        have h1 : 2 ^ 63 * 1000000000 ≤ key.time * 1000000000 :=
          Nat.mul_le_mul_right _ hc
        have h2 : (2 ^ 63 : Nat) < 2 ^ 63 * 1000000000 := by norm_num
        omega
      have ha : asI64 key.time = (key.time : Int) := by
        rw [asI64_eq_of_lt key.time ht, if_pos ht63]
      rw [ha]
      have hc1 : (0 : Int) ≤ (key.time : Int) * 1000000000 := by positivity
      have hc2 : (key.time : Int) * 1000000000 < 2 ^ 63 := by
        have : ((key.time * 1000000000 : Nat) : Int) < ((2 ^ 63 : Nat) : Int) := by
          exact_mod_cast hlt
        push_cast at this
        omega
      exact iwrap64_eq_self _ (by omega) hc2

/-- C10 witness: a `2^63` packet count is written as a negative field, and a
bucket time of 100 seconds yields the exact nanosecond timestamp. -/
theorem c10_wrapping_casts_witness :
    (dataPointOf (fun _ => "") 0 demoKeyT ⟨2 ^ 63, 2 ^ 63⟩).packets_field < 0 ∧
    (dataPointOf (fun _ => "") 0 demoKeyT ⟨2 ^ 63, 2 ^ 63⟩).timestamp =
      (100 : Int) * 1000000000 := by
  have h := c10_wrapping_casts (fun _ => "") 0 demoKeyT ⟨2 ^ 63, 2 ^ 63⟩
    (by decide) (by decide) (by decide)
  exact ⟨h.2.1 (by decide), h.2.2.2.2.mpr (by decide)⟩

/-! ### Batch sequence number lemmas -/

lemma recvPhase_batch (cid : List IpCidr) (ev : RecvEvent) (s : LoopState) :
    (recvPhase cid ev s).state.batch_number = s.batch_number := by
  unfold recvPhase
  repeat' split
  all_goals simp_all

lemma step_carried (th : Nat) (cid : List IpCidr) (ok : Bool) (ev : RecvEvent)
    (s : LoopState) :
    ((step th cid ok ev s).carried = some s.batch_number ∧
      (step th cid ok ev s).state.batch_number = iwrap64 (s.batch_number + 1)) ∨
    ((step th cid ok ev s).carried = none ∧
      (step th cid ok ev s).state.batch_number = s.batch_number) := by
  by_cases hdue : th ≤ s.size_of_cache
  · cases ok
    · left
      rw [step_fail_due th cid ev s hdue]
      exact ⟨rfl, rfl⟩
    · left
      constructor
      · simp [step, flushPhase, hdue]
      · simp [step, flushPhase, hdue, recvPhase_batch]
  · right
    constructor
    · simp [step, flushPhase, hdue]
    · simp [step, flushPhase, hdue, recvPhase_batch]

lemma runTrace_cons_fatal (th : Nat) (cid : List IpCidr) (ok : Bool) (ev : RecvEvent)
    (rest : List (Bool × RecvEvent)) (s : LoopState)
    (hf : (step th cid ok ev s).fatal = true) :
    runTrace th cid ((ok, ev) :: rest) s =
      ((step th cid ok ev s).state, (step th cid ok ev s).carried.toList) := by
  simp [runTrace, hf]

lemma runTrace_cons_live (th : Nat) (cid : List IpCidr) (ok : Bool) (ev : RecvEvent)
    (rest : List (Bool × RecvEvent)) (s : LoopState)
    (hf : (step th cid ok ev s).fatal = false) :
    runTrace th cid ((ok, ev) :: rest) s =
      ((runTrace th cid rest (step th cid ok ev s).state).1,
        (step th cid ok ev s).carried.toList ++
          (runTrace th cid rest (step th cid ok ev s).state).2) := by
  simp [runTrace, hf]

lemma runTrace_carried_index (th : Nat) (cid : List IpCidr) :
    ∀ (t : List (Bool × RecvEvent)) (s : LoopState) (m : Nat),
      s.batch_number = iwrap64 (m : Int) →
      ∀ (i : Nat) (v : Int), ((runTrace th cid t s).2)[i]? = some v →
        v = iwrap64 ((m + i : Nat) : Int) := by
  intro t
  induction t with
  | nil =>
    intro s m hm i v hv
    simp [runTrace] at hv
  | cons p rest ih =>
    intro s m hm i v hv
    obtain ⟨ok, ev⟩ := p
    rcases step_carried th cid ok ev s with ⟨hc, hb⟩ | ⟨hc, hb⟩
    · have hs2 : (step th cid ok ev s).state.batch_number = iwrap64 ((m + 1 : Nat) : Int) := by
        rw [hb, hm, iwrap64_add_left]
        congr 1
      by_cases hf : (step th cid ok ev s).fatal
      · rw [runTrace_cons_fatal th cid ok ev rest s hf, hc] at hv
        cases i with
        | zero =>
          simp [Option.toList] at hv
          rw [← hv, hm]
          congr 1
        | succ j => simp [Option.toList] at hv
      · rw [runTrace_cons_live th cid ok ev rest s (by simpa using hf), hc] at hv
        cases i with
        | zero =>
          simp [Option.toList] at hv
          rw [← hv, hm]
          congr 1
        | succ j =>
          simp [Option.toList] at hv
          have hj := ih _ (m + 1) hs2 j v hv
          rw [hj]
          congr 1 <;> push_cast <;> ring
    · have hs2 : (step th cid ok ev s).state.batch_number = iwrap64 ((m : Nat) : Int) := by
        rw [hb, hm]
      by_cases hf : (step th cid ok ev s).fatal
      · rw [runTrace_cons_fatal th cid ok ev rest s hf, hc] at hv
        simp [Option.toList] at hv
      · rw [runTrace_cons_live th cid ok ev rest s (by simpa using hf), hc] at hv
        simp [Option.toList] at hv
        exact ih _ m hs2 i v hv

lemma runTrace_replicate_fail_length :
    ∀ (n : Nat) (s : LoopState),
      ((runTrace 0 [] (List.replicate n (false, RecvEvent.kafkaError)) s).2).length = n := by
  intro n
  induction n with
  | zero => intro s; simp [runTrace]
  | succ n ih =>
    intro s
    have hstep := step_fail_due 0 [] RecvEvent.kafkaError s (Nat.zero_le _)
    have hf : (step 0 [] false RecvEvent.kafkaError s).fatal = false := by
      rw [hstep]
    rw [List.replicate_succ, runTrace_cons_live 0 [] false RecvEvent.kafkaError _ s hf]
    have hc : (step 0 [] false RecvEvent.kafkaError s).carried = some s.batch_number := by
      rw [hstep]
    rw [hc]
    simp [Option.toList, ih]

/-! ### Claim C5 -/

/-- C5, counterexample: the batch sequence number lives in a wrapping signed
64-bit atomic, so over a long enough run it is neither strictly increasing
nor unique: with a failing sink and threshold 0, attempt 0 carries batch
number 0, attempt `2^63` carries `-(2^63)` (smaller than attempt 0), and
attempt `2^64` carries 0 again (reused). -/
theorem c5_counterexample :
    (runCarried 0 [] (List.replicate (2 ^ 64 + 1) (false, RecvEvent.kafkaError)))[0]? =
      some 0 ∧
    (runCarried 0 [] (List.replicate (2 ^ 64 + 1) (false, RecvEvent.kafkaError)))[2 ^ 63]? =
      some (-(2 ^ 63)) ∧
    (runCarried 0 [] (List.replicate (2 ^ 64 + 1) (false, RecvEvent.kafkaError)))[2 ^ 64]? =
      some 0 ∧
    ¬ ((0 : Int) < -(2 ^ 63)) := by
  have h0 : initState.batch_number = iwrap64 ((0 : Nat) : Int) := by decide
  have hlen : (runCarried 0 [] (List.replicate (2 ^ 64 + 1) (false, RecvEvent.kafkaError))).length
      = 2 ^ 64 + 1 := runTrace_replicate_fail_length (2 ^ 64 + 1) initState
  have hidx : ∀ i : Nat, i < 2 ^ 64 + 1 →
      (runCarried 0 [] (List.replicate (2 ^ 64 + 1) (false, RecvEvent.kafkaError)))[i]? =
        some (iwrap64 ((0 + i : Nat) : Int)) := by
    intro i hi
    have hi2 : i < (runCarried 0 [] (List.replicate (2 ^ 64 + 1) (false, RecvEvent.kafkaError))).length := by
      rw [hlen]; exact hi
    have hsome : (runCarried 0 [] (List.replicate (2 ^ 64 + 1) (false, RecvEvent.kafkaError)))[i]? =
        some ((runCarried 0 [] (List.replicate (2 ^ 64 + 1) (false, RecvEvent.kafkaError)))[i]) :=
      List.getElem?_eq_getElem hi2
    have hval := runTrace_carried_index 0 [] (List.replicate (2 ^ 64 + 1) (false, RecvEvent.kafkaError))
      initState 0 h0 i _ hsome
    rw [hsome, hval]
  refine ⟨?_, ?_, ?_, by decide⟩
  · rw [hidx 0 (by norm_num)]
    decide
  · rw [hidx (2 ^ 63) (by norm_num)]
    decide
  · rw [hidx (2 ^ 64) (by norm_num)]
    decide

/-- C5, amended: the batch sequence number starts at 0 and is advanced by a
wrapping 64-bit `fetch_add` on every flush attempt, failed ones included;
consequently, in every run of the loop, among flush attempts with indexes
below `2^63` each later attempt carries a strictly greater batch number than
every earlier one, and among attempts with indexes below `2^64` no batch
number is ever reused. -/
theorem c5_batch_monotone (th : Nat) (cid : List IpCidr)
    (t : List (Bool × RecvEvent)) (i j : Nat) (vi vj : Int) (hij : i < j)
    (hi : (runCarried th cid t)[i]? = some vi)
    (hj : (runCarried th cid t)[j]? = some vj) :
    (j < 2 ^ 63 → vi < vj) ∧ (j < 2 ^ 64 → vi ≠ vj) := by
  have h0 : initState.batch_number = iwrap64 ((0 : Nat) : Int) := by decide
  have hvi := runTrace_carried_index th cid t initState 0 h0 i vi hi
  have hvj := runTrace_carried_index th cid t initState 0 h0 j vj hj
  rw [Nat.zero_add] at hvi hvj
  constructor
  · intro hj63
    have hi63 : i < 2 ^ 63 := lt_trans hij hj63
    rw [hvi, hvj, iwrap64_eq_self _ (by omega) (by exact_mod_cast hi63),
      iwrap64_eq_self _ (by omega) (by exact_mod_cast hj63)]
    exact_mod_cast hij
  · intro hj64 heq
    rw [hvi, hvj] at heq
    unfold iwrap64 at heq
    have hic : (i : Int) < (j : Int) := by exact_mod_cast hij
    have hjc : (j : Int) < 2 ^ 64 := by exact_mod_cast hj64
    have hinn : (0 : Int) ≤ (i : Int) := Int.natCast_nonneg i
    omega

/-- C5 witness: a short failing-sink run at threshold 0 — attempt 0 carries
batch 0 and attempt 2 carries batch 2, strictly greater and distinct. -/
theorem c5_batch_monotone_witness :
    (runCarried 0 [] (List.replicate 3 (false, RecvEvent.kafkaError)))[0]? = some 0 ∧
    (runCarried 0 [] (List.replicate 3 (false, RecvEvent.kafkaError)))[2]? = some 2 ∧
    (0 : Int) < 2 ∧ (0 : Int) ≠ 2 := by
  refine ⟨by decide, by decide, ?_, ?_⟩
  · exact (c5_batch_monotone 0 [] (List.replicate 3 (false, RecvEvent.kafkaError))
      0 2 0 2 (by decide) (by decide) (by decide)).1 (by decide)
  · exact (c5_batch_monotone 0 [] (List.replicate 3 (false, RecvEvent.kafkaError))
      0 2 0 2 (by decide) (by decide) (by decide)).2 (by decide)

/-! ### Claim C6 -/

lemma edgeCacheMerge_ne_nil (c : List (AggregatedKey × CommunicationData))
    (k : AggregatedKey) (p b : Nat) : edgeCacheMerge c k p b ≠ [] := by
  cases c with
  | nil => simp [edgeCacheMerge]
  | cons e rest =>
    by_cases h : e.1 = k <;> simp [edgeCacheMerge, h]

lemma recvPhase_inv (cid : List IpCidr) (ev : RecvEvent) (s : LoopState) (g : Nat)
    (h1 : s.size_of_cache = g % U64) (h2 : s.edge_cache = [] ↔ g = 0)
    (hf : (recvPhase cid ev s).fatal = false) :
    (recvPhase cid ev s).state.size_of_cache = (g + (recvPhase cid ev s).added) % U64 ∧
    ((recvPhase cid ev s).state.edge_cache = [] ↔ g + (recvPhase cid ev s).added = 0) := by
  cases ev with
  | kafkaError => exact ⟨by simpa [recvPhase] using h1, by simpa [recvPhase] using h2⟩
  | noPayload => simp [recvPhase] at hf
  | decodeFail => simp [recvPhase] at hf
  | msg m =>
    cases hsrc : parse_location m.etype m.src_addr cid with
    | error e => simp [recvPhase, hsrc] at hf
    | ok osrc =>
      cases osrc with
      | none =>
        refine ⟨by simpa [recvPhase, hsrc] using h1, by simpa [recvPhase, hsrc] using h2⟩
      | some src =>
        cases hdst : parse_location m.etype m.dst_addr cid with
        | error e => simp [recvPhase, hsrc, hdst] at hf
        | ok odst =>
          cases odst with
          | none =>
            refine ⟨by simpa [recvPhase, hsrc, hdst] using h1,
              by simpa [recvPhase, hsrc, hdst] using h2⟩
          | some dst =>
            by_cases htime : m.time_received < 2 ^ 63
            · constructor
              · simp only [recvPhase, hsrc, hdst, if_pos htime]
                rw [h1]
                simp [Nat.mod_add_mod]
              · simp only [recvPhase, hsrc, hdst, if_pos htime]
                constructor
                · intro hx
                  exact absurd hx (edgeCacheMerge_ne_nil _ _ _ _)
                · intro hx
                  omega
            · simp only [recvPhase, hsrc, hdst, if_neg htime] at hf
              simp at hf

lemma step_inv (th : Nat) (cid : List IpCidr) (ok : Bool) (ev : RecvEvent)
    (s : LoopState) (g : Nat)
    (h1 : s.size_of_cache = g % U64) (h2 : s.edge_cache = [] ↔ g = 0)
    (hf : (step th cid ok ev s).fatal = false) :
    (step th cid ok ev s).state.size_of_cache =
      (((if (step th cid ok ev s).succeeded then 0 else g) +
        (step th cid ok ev s).added)) % U64 ∧
    ((step th cid ok ev s).state.edge_cache = [] ↔
      ((if (step th cid ok ev s).succeeded then 0 else g) +
        (step th cid ok ev s).added) = 0) := by
  by_cases hdue : th ≤ s.size_of_cache
  · cases ok
    · rw [step_fail_due th cid ev s hdue]
      exact ⟨by simpa using h1, by simpa using h2⟩
    · have hA : (step th cid true ev s).succeeded = true := by
        simp [step, flushPhase, hdue]
      have hSt : (step th cid true ev s).state =
          (recvPhase cid ev (flushPhase th true s).state).state := by
        simp [step, flushPhase, hdue]
      have hAd : (step th cid true ev s).added =
          (recvPhase cid ev (flushPhase th true s).state).added := by
        simp [step, flushPhase, hdue]
      have hFa : (step th cid true ev s).fatal =
          (recvPhase cid ev (flushPhase th true s).state).fatal := by
        simp [step, flushPhase, hdue]
      have hfs : (flushPhase th true s).state.size_of_cache = 0 := by
        simp [flushPhase, hdue]
      have hfc : (flushPhase th true s).state.edge_cache = [] := by
        simp [flushPhase, hdue]
      have hrec := recvPhase_inv cid ev (flushPhase th true s).state 0
        (by rw [hfs]; simp) (by rw [hfc]; simp) (by rw [← hFa]; exact hf)
      rw [hSt, hA, hAd]
      simpa using hrec
  · have hA : (step th cid ok ev s).succeeded = false := by
      simp [step, flushPhase, hdue]
    have hSt : (step th cid ok ev s).state = (recvPhase cid ev s).state := by
      simp [step, flushPhase, hdue]
    have hAd : (step th cid ok ev s).added = (recvPhase cid ev s).added := by
      simp [step, flushPhase, hdue]
    have hFa : (step th cid ok ev s).fatal = (recvPhase cid ev s).fatal := by
      simp [step, flushPhase, hdue]
    have hrec := recvPhase_inv cid ev s g h1 h2 (by rw [← hFa]; exact hf)
    rw [hSt, hA, hAd]
    simpa using hrec

lemma reach_inv (th : Nat) (cid : List IpCidr) (s : LoopState) (g : Nat)
    (h : Reach th cid s g) :
    s.size_of_cache = g % U64 ∧ (s.edge_cache = [] ↔ g = 0) := by
  induction h with
  | init => exact ⟨rfl, by simp [initState]⟩
  | next s g ok ev hr hf ih => exact step_inv th cid ok ev s g ih.1 ih.2 hf

lemma flushPhase_success_clears (th : Nat) (ok : Bool) (s : LoopState)
    (hsuc : (flushPhase th ok s).succeeded = true) :
    (flushPhase th ok s).state.edge_cache = [] ∧
    (flushPhase th ok s).state.size_of_cache = 0 := by
  by_cases hdue : th ≤ s.size_of_cache <;> cases ok <;>
    simp [flushPhase, hdue] at hsuc ⊢

/-- C6, counterexample: the approximate-size counter is a wrapping `usize`,
so after ingesting two records whose increments total exactly `2^64` (at a
threshold the run never reaches) the counter reads zero while the cache
holds a merged entry — the claimed "non-zero iff records received since the
last successful flush" equivalence fails, with no reset having occurred. -/
theorem c6_counterexample :
    ((runTrace (2 ^ 64) [] [(true, RecvEvent.msg hugeMsg1), (true, RecvEvent.msg hugeMsg2)]
        initState).1.size_of_cache = 0) ∧
    ((runTrace (2 ^ 64) [] [(true, RecvEvent.msg hugeMsg1), (true, RecvEvent.msg hugeMsg2)]
        initState).1.edge_cache ≠ []) := by
  constructor <;> decide

/-- C6, amended: at every point between non-fatal ingestion-loop iterations,
the approximate-size counter is non-zero only if the cache has received
(merged) at least one record since the last successful flush; the converse
also holds as long as the exact sum `g` of size increments since that flush
stays below `2^64` (the counter wraps at `2^64`); and at flush success the
counter and the cache are reset together (cache cleared, counter zeroed). -/
theorem c6_size_cache_consistency (th : Nat) (cid : List IpCidr)
    (s : LoopState) (g : Nat) (h : Reach th cid s g) :
    (s.size_of_cache ≠ 0 → s.edge_cache ≠ []) ∧
    (g < U64 → (s.size_of_cache ≠ 0 ↔ s.edge_cache ≠ [])) ∧
    (∀ ok : Bool, (flushPhase th ok s).succeeded = true →
      (flushPhase th ok s).state.size_of_cache = 0 ∧
      (flushPhase th ok s).state.edge_cache = []) := by
  obtain ⟨h1, h2⟩ := reach_inv th cid s g h
  refine ⟨?_, ?_, ?_⟩
  · intro hs hc
    rw [h1, h2.mp hc] at hs
    simp at hs
  · intro hg
    rw [h1, Nat.mod_eq_of_lt hg]
    exact (not_congr h2).symm
  · intro ok hsuc
    obtain ⟨hc, hs⟩ := flushPhase_success_clears th ok s hsuc
    exact ⟨hs, hc⟩

/-- C6 witness: the initial reachable state (ghost sum 0) satisfies the
equivalence, and a due successful flush from the demo state resets both
together. -/
theorem c6_size_cache_consistency_witness :
    (initState.size_of_cache ≠ 0 ↔ initState.edge_cache ≠ []) ∧
    (initState.size_of_cache ≠ 0 → initState.edge_cache ≠ []) := by
  have h := c6_size_cache_consistency 0 [] initState 0 Reach.init
  exact ⟨h.2.1 (by decide), h.1⟩

end LogProc
